import Mathlib

/-!
# TaskManagement: the task store API (`backend/server.js`)

A shallow embedding of the five route handlers of `backend/server.js` together
with the part of the Mongoose schema (`taskSchema`) that decides their outcome.

* The collection is a list of documents in natural (insertion) order.
* Every handler is a function from the collection and the request to the
  HTTP response and the collection afterwards. A rejected promise inside the
  handler's `try` block is the `catch` branch: status 500.
* Three facilities of the platform are not part of the repository and are taken
  as a parameter (`Platform`): whether `new RegExp(src, 'i')` can be built,
  whether that expression matches a stored title, and how a path parameter is
  cast to an `ObjectId`. General theorems hold for every platform; concrete
  evaluations use `refPlatform`.
* The value produced by `new ObjectId()` and the clock reading used for the
  timestamps are inputs of the handlers that need them.
-/

set_option autoImplicit false

namespace TaskManagement

/-! ## JavaScript values -/

/-- A field of a parsed JSON request body. `undefined` is an absent key. `other`
is an array or an object, of which only one thing is ever observed: `idMember`
is its `_id` member when that member is a string (an array has none). Numbers
are integer valued; a fractional number behaves like a non-zero integer
everywhere in this file. -/
inductive JVal where
  | undefined
  | null
  | bool (b : Bool)
  | num (n : Int)
  | str (s : String)
  | other (idMember : Option String)
  deriving DecidableEq, Repr

/-- JavaScript truthiness (`!v` is its negation). -/
def JVal.truthy : JVal → Bool
  | .undefined => false
  | .null => false
  | .bool b => b
  | .num n => n != 0
  | .str s => s != ""
  | .other _ => true

/-- The code points removed by `String.prototype.trim`: ECMAScript WhiteSpace
and LineTerminator. -/
def isJsSpace (c : Char) : Bool :=
  let n := c.toNat
  n == 0x09 || n == 0x0A || n == 0x0B || n == 0x0C || n == 0x0D || n == 0x20 ||
  n == 0xA0 || n == 0x1680 || (0x2000 ≤ n && n ≤ 0x200A) || n == 0x2028 ||
  n == 0x2029 || n == 0x202F || n == 0x205F || n == 0x3000 || n == 0xFEFF

/-- `String.prototype.trim` on the list of code points. -/
def trimChars (l : List Char) : List Char :=
  ((l.dropWhile isJsSpace).reverse.dropWhile isJsSpace).reverse

/-- `s.trim()`. -/
def jsTrim (s : String) : String := ⟨trimChars s.data⟩

/-! ## The `Task` model (`taskSchema`, lines 17-39) -/

/-- The canonical form of a store identifier. -/
abbrev ObjectId := String

/-- A stored task document. `description` has no default in the schema, so a
document may lack it. The version key `__v` is not modelled. -/
structure Task where
  _id : ObjectId
  title : String
  description : Option String
  status : String
  createdAt : Nat
  updatedAt : Nat
  deriving DecidableEq, Repr

/-- The collection, in natural order. -/
abbrev Store := List Task

/-- `enum: ['pending', 'in-progress', 'completed']`. -/
def statusEnum : List String := ["pending", "in-progress", "completed"]

/-- Mongoose casting of a value given for a `String` path (Mongoose 5.7 or
later, which the `useUnifiedTopology` option of line 162 needs): a string is
kept, a number or boolean is converted with `toString`, an object whose `_id`
is a non-empty string is cast to that string, every other array or object is a
CastError (`none`). The handlers never hand `null` or `undefined` to a String
path (create substitutes a default first, update copies strings only); they are
listed with the error cases. -/
def castString : JVal → Option String
  | .str s => some s
  | .num n => some (toString n)
  | .bool b => some (toString b)
  | .other (some s) => if s = "" then none else some s
  | _ => none

/-- The paths of a document to be saved, after the schema setters. -/
structure Fields where
  title : String
  description : String
  status : String
  deriving DecidableEq, Repr

/-- Casting, setters and validation of `taskSchema` for `new Task(..).save()`:
`trim: true` on title and description, `required: true` on title (a String path
is missing when it is the empty string), `enum` on status. `none` is a
CastError or ValidationError. -/
def taskSchema (title description : String) (status : JVal) : Option Fields :=
  match castString status with
  | none => none
  | some st =>
    let t := jsTrim title
    if t = "" then none
    else if st ∈ statusEnum then some ⟨t, jsTrim description, st⟩
    else none

/-- The `$set` document built by the update handler: a path is present when
the handler assigned it. -/
structure Updates where
  title : Option String
  description : Option String
  status : Option String
  deriving DecidableEq, Repr

/-- Casting, setters and update validators (`runValidators: true`) of
`taskSchema` on the paths present in `$set`. Update validators only run on the
paths of the update. -/
def taskSchemaUpdate (u : Updates) : Option Updates :=
  let t := u.title.map jsTrim
  if t = some "" then none
  else
    match u.status with
    | some st =>
      if st ∈ statusEnum then some ⟨t, u.description.map jsTrim, some st⟩ else none
    | none => some ⟨t, u.description.map jsTrim, none⟩

/-! ## Platform facilities -/

/-- What the handlers use from the JavaScript engine, the database and the
driver. -/
structure Platform where
  /-- Whether `new RegExp(src, 'i')` succeeds and the store accepts the
  expression; when it does not the call throws. -/
  regexValid : String → Bool
  /-- Whether the store matches a title against the case-insensitive
  expression with source `src` (first argument). -/
  regexTest : String → String → Bool
  /-- Casting of a path parameter to an identifier; `none` is a CastError. -/
  castObjectId : String → Option ObjectId

/-! ## HTTP responses -/

/-- A JSON response: a task, the array of tasks, or an object with a
`message`. -/
inductive Response where
  | task (code : Nat) (t : Task)
  | tasks (code : Nat) (ts : List Task)
  | message (code : Nat) (msg : String)
  deriving DecidableEq, Repr

/-- The HTTP status of a response. -/
def Response.code : Response → Nat
  | .task c _ => c
  | .tasks c _ => c
  | .message c _ => c

/-- A parsed request body, reduced to the three keys the handlers read. -/
structure Body where
  title : JVal
  description : JVal
  status : JVal
  deriving DecidableEq, Repr

/-! ## Queries -/

/-- The source of the expression built at lines 82 and 118: the trimmed title
between the two anchors, not escaped. -/
def titleRegex (t : String) : String := "^" ++ t ++ "$"

/-- The document `Task.findById` returns for a cast identifier. -/
def findById (s : Store) (oid : ObjectId) : Option Task :=
  s.find? (fun x => x._id == oid)

/-- Insertion of a task into a list ordered by `createdAt`, newest first. -/
def insertDesc (t : Task) : List Task → List Task
  | [] => [t]
  | x :: xs => if x.createdAt ≤ t.createdAt then t :: x :: xs else x :: insertDesc t xs

/-- The cursor order `.sort({ createdAt: -1 })`. -/
def sortCreatedAtDesc (s : List Task) : List Task := s.foldr insertDesc []

/-- The document with the paths of `u` assigned and `updatedAt` refreshed
(`timestamps: true`). -/
def applyUpdates (u : Updates) (now : Nat) (t : Task) : Task :=
  { t with
    title := u.title.getD t.title
    description := match u.description with
      | some d => some d
      | none => t.description
    status := u.status.getD t.status
    updatedAt := now }

/-- The collection after `f` is applied to the first document whose identifier
is `oid`. -/
def updateFirst (oid : ObjectId) (f : Task → Task) : Store → Store
  | [] => []
  | x :: xs => if x._id == oid then f x :: xs else x :: updateFirst oid f xs

/-! ## Route handlers -/

/-- Line 47, `GET /api/tasks`. -/
def getTasks (s : Store) : Response × Store :=
  (.tasks 200 (sortCreatedAtDesc s), s)

/-- Line 58, `GET /api/tasks/:id`. -/
def getTaskById (P : Platform) (s : Store) (id : String) : Response × Store :=
  match P.castObjectId id with
  | none => (.message 500 "Server error while fetching task", s)
  | some oid =>
    match findById s oid with
    | none => (.message 404 "Task not found", s)
    | some t => (.task 200 t, s)

/-- The argument `(description || '').trim()` of line 92; `none` is the
TypeError raised when the operand has no `trim` method. -/
def descriptionArg (description : JVal) : Option String :=
  match (if description.truthy then description else JVal.str "") with
  | .str d => some (jsTrim d)
  | _ => none

/-- The argument `status || 'pending'` of line 93. -/
def statusArg (status : JVal) : JVal :=
  if status.truthy then status else .str "pending"

/-- Line 72, `POST /api/tasks`. `newId` is the identifier generated for the
new document and `now` the clock reading; inserting an identifier that is
already present is a duplicate key error. -/
def createTask (P : Platform) (newId : ObjectId) (now : Nat) (s : Store) (b : Body) :
    Response × Store :=
  match b.title with
  | .str title =>
    if title = "" then (.message 400 "Title is required", s)
    else
      let src := titleRegex (jsTrim title)
      if !P.regexValid src then (.message 500 "Server error while creating task", s)
      else
        match s.find? (fun x => P.regexTest src x.title) with
        | some _ => (.message 400 "A task with this title already exists.", s)
        | none =>
          match descriptionArg b.description with
          | none => (.message 500 "Server error while creating task", s)
          | some d =>
            match taskSchema (jsTrim title) d (statusArg b.status) with
            | none => (.message 500 "Server error while creating task", s)
            | some f =>
              if s.any (fun x => x._id == newId) then
                (.message 500 "Server error while creating task", s)
              else
                let t : Task := ⟨newId, f.title, some f.description, f.status, now, now⟩
                (.task 201 t, s ++ [t])
  | _ => (.message 400 "Title is required", s)

/-- Lines 109-112: the `updates` object. -/
def updatesOf (b : Body) : Updates :=
  { title := match b.title with
      | .str t => some (jsTrim t)
      | _ => none
    description := match b.description with
      | .str d => some (jsTrim d)
      | _ => none
    status := match b.status with
      | .str st => some st
      | _ => none }

/-- Lines 127-137: `findByIdAndUpdate` with `new: true, runValidators: true`
and the two responses after it. -/
def findByIdAndUpdate (P : Platform) (now : Nat) (s : Store) (id : String) (u : Updates) :
    Response × Store :=
  match P.castObjectId id with
  | none => (.message 500 "Server error while updating task", s)
  | some oid =>
    match taskSchemaUpdate u with
    | none => (.message 500 "Server error while updating task", s)
    | some v =>
      match findById s oid with
      | none => (.message 404 "Task not found", s)
      | some t => (.task 200 (applyUpdates v now t), updateFirst oid (applyUpdates v now) s)

/-- Line 105, `PUT /api/tasks/:id`. -/
def updateTask (P : Platform) (now : Nat) (s : Store) (id : String) (b : Body) :
    Response × Store :=
  let u := updatesOf b
  match u.title with
  | some t =>
    if t = "" then findByIdAndUpdate P now s id u
    else
      let src := titleRegex t
      if !P.regexValid src then (.message 500 "Server error while updating task", s)
      else
        match P.castObjectId id with
        | none => (.message 500 "Server error while updating task", s)
        | some oid =>
          match s.find? (fun x => x._id != oid && P.regexTest src x.title) with
          | some _ => (.message 400 "A task with this title already exists.", s)
          | none => findByIdAndUpdate P now s id u
  | none => findByIdAndUpdate P now s id u

/-- Line 145, `DELETE /api/tasks/:id`. -/
def deleteTask (P : Platform) (s : Store) (id : String) : Response × Store :=
  match P.castObjectId id with
  | none => (.message 500 "Server error while deleting task", s)
  | some oid =>
    match findById s oid with
    | none => (.message 404 "Task not found", s)
    | some _ =>
      (.message 200 "Task deleted successfully", s.eraseP (fun x => x._id == oid))

/-- A mutating request with the environment values its handler consumes. -/
inductive Request where
  | create (newId : ObjectId) (now : Nat) (b : Body)
  | update (now : Nat) (id : String) (b : Body)
  | delete (id : String)

/-- The collection after one request. -/
def step (P : Platform) (s : Store) : Request → Store
  | .create newId now b => (createTask P newId now s b).2
  | .update now id b => (updateTask P now s id b).2
  | .delete id => (deleteTask P s id).2

/-- The collection after a sequence of requests, processed one at a time. -/
def run (P : Platform) (s : Store) (rs : List Request) : Store :=
  rs.foldl (step P) s

/-- Identifiers are unique in a collection (the `_id` index). -/
def UniqueIds (s : Store) : Prop := (s.map Task._id).Nodup

/-! ## A reference platform -/

/-- Quantifier of a pattern character. -/
inductive Quant where
  | one
  | opt
  | star
  | plus
  deriving DecidableEq, Repr

/-- A character that stands for itself in a pattern: printable ASCII other
than the syntax characters. -/
def isPlainChar (c : Char) : Bool :=
  (0x20 ≤ c.toNat && c.toNat ≤ 0x7E) &&
  !(c ∈ ['\\', '^', '$', '.', '|', '?', '*', '+', '(', ')', '[', ']', '{', '}'])

/-- Parser for a sequence of plain characters, each with at most one of the
quantifiers `?`, `*`, `+`. -/
def parsePieces : List Char → Option (List (Char × Quant))
  | [] => some []
  | c :: '?' :: r => if isPlainChar c then (parsePieces r).map ((c, .opt) :: ·) else none
  | c :: '*' :: r => if isPlainChar c then (parsePieces r).map ((c, .star) :: ·) else none
  | c :: '+' :: r => if isPlainChar c then (parsePieces r).map ((c, .plus) :: ·) else none
  | c :: r => if isPlainChar c then (parsePieces r).map ((c, .one) :: ·) else none

/-- Parser for a source of the form `^body$`. -/
def parseSource (src : String) : Option (List (Char × Quant)) :=
  match src.data with
  | '^' :: rest =>
    match rest.reverse with
    | '$' :: rb => parsePieces rb.reverse
    | _ => none
  | _ => none

/-- Equality of characters with the `i` flag, ASCII case folding. -/
def eqIgnoreCase (c d : Char) : Bool := c.toLower == d.toLower

/-- Matching of `c*` followed by the continuation `k`. -/
def matchStar (c : Char) (k : List Char → Bool) : List Char → Bool
  | [] => k []
  | d :: r => k (d :: r) || (eqIgnoreCase c d && matchStar c k r)

/-- Matching of a parsed body against a whole subject. -/
def matchPieces : List (Char × Quant) → List Char → Bool
  | [] => fun s => s.isEmpty
  | (c, .one) :: ps => fun s =>
    match s with
    | d :: r => eqIgnoreCase c d && matchPieces ps r
    | [] => false
  | (c, .opt) :: ps => fun s =>
    matchPieces ps s ||
    match s with
    | d :: r => eqIgnoreCase c d && matchPieces ps r
    | [] => false
  | (c, .star) :: ps => matchStar c (matchPieces ps)
  | (c, .plus) :: ps => fun s =>
    match s with
    | d :: r => eqIgnoreCase c d && matchStar c (matchPieces ps) r
    | [] => false

/-- Hexadecimal digit. -/
def isHexDigit (c : Char) : Bool :=
  c.isDigit || (0x61 ≤ c.toNat && c.toNat ≤ 0x66) || (0x41 ≤ c.toNat && c.toNat ≤ 0x46)

/-- A platform for concrete evaluation. Regular expressions are those of the
form `^body$` where `body` is a sequence of plain ASCII characters, each
optionally followed by `?`, `*` or `+`; on these, and on ASCII subjects, the
result is that of the JavaScript and PCRE engines. Every other source is
reported as not constructible: the instance says nothing about it. An
identifier is well formed when it is 24 hexadecimal digits. -/
def refPlatform : Platform where
  regexValid src := (parseSource src).isSome
  regexTest src subject :=
    match parseSource src with
    | some ps => matchPieces ps subject.data
    | none => false
  castObjectId id :=
    if id.data.length = 24 ∧ id.data.all isHexDigit then some ⟨id.data.map Char.toLower⟩
    else none

/-! ## Auxiliary notions for the statements -/

/-- The collection with the title of every document other than `target`
replaced by `f`; with no target every title is replaced. -/
def retitleOthers (target : Option ObjectId) (f : Task → String) (s : Store) : Store :=
  s.map (fun x => if some x._id = target then x else { x with title := f x })

/-! ## Concrete requests and documents used in the evaluations -/

/-- Two well-formed identifiers. -/
def idA : ObjectId := "65f0a1b2c3d4e5f601234567"

/-- The second identifier. -/
def idB : ObjectId := "65f0a1b2c3d4e5f601234568"

/-- Body with only a title. -/
def titleOnly (title : String) : Body := ⟨.str title, .undefined, .undefined⟩

/-- Body with a title and a status. -/
def titleStatus (title status : String) : Body := ⟨.str title, .undefined, .str status⟩

/-- Body with only a status. -/
def statusOnly (status : String) : Body := ⟨.undefined, .undefined, .str status⟩

/-- A pending task with an empty description. -/
def pendingTask (oid : ObjectId) (title : String) (now : Nat) : Task :=
  ⟨oid, title, some "", "pending", now, now⟩

/-! ## The task console (`frontend/app.js`, lines 345-354) -/

/-- `hay.includes(needle)`: the needle starts at some position of the
haystack. -/
def includes (hay needle : String) : Bool :=
  hay.data.tails.any (fun t => needle.data.isPrefixOf t)

/-- `description || ''` for a description that may be missing. -/
def orEmpty : Option String → String
  | some d => if d = "" then "" else d
  | none => ""

/-- Lines 345-354, `filteredTasks`. `toLowerCase` is the method of the
JavaScript engine, `tasks`, `filterStatus` and `search` are the component
state. -/
def filteredTasks (toLowerCase : String → String) (tasks : List Task)
    (filterStatus search : String) : List Task :=
  tasks.filter (fun t =>
    let matchesStatus := if filterStatus = "all" then true else t.status == filterStatus
    let needle := toLowerCase (jsTrim search)
    let matchesSearch :=
      needle == "" || includes (toLowerCase t.title) needle ||
        includes (toLowerCase (orEmpty t.description)) needle
    matchesStatus && matchesSearch)

/-- Lower-casing of ASCII letters, which is `toLowerCase` on ASCII strings;
used for concrete evaluation. -/
def asciiLowerCase (s : String) : String := ⟨s.data.map Char.toLower⟩

/-- The needle occurs as a contiguous substring of the haystack. -/
def OccursIn (needle hay : String) : Prop := needle.data <:+: hay.data

/-- The condition of the specification for showing task `t` under the status
filter and the search text `q`: the filter is `all` or is the status of `t`,
and `q`, lower-cased, occurs in the lower-cased title or description (a missing
description is the empty text). -/
def ShownBySpec (toLowerCase : String → String) (filterStatus q : String) (t : Task) : Prop :=
  (filterStatus = "all" ∨ t.status = filterStatus) ∧
  (OccursIn (toLowerCase q) (toLowerCase t.title) ∨
    OccursIn (toLowerCase q) (toLowerCase (t.description.getD "")))

/-- The two tasks of the console scenario. -/
def scenarioTasks : List Task :=
  [⟨idA, "A", none, "pending", 1, 1⟩, ⟨idB, "B", none, "completed", 2, 2⟩]

/-! ## Lemmas on trimming and casting -/

theorem dropWhile_prefix_of_dropWhile (p : Char → Bool) (l m : List Char)
    (hm : m <+: l.dropWhile p) : m.dropWhile p = m := by
  cases m with
  | nil => rfl
  | cons a t =>
    obtain ⟨r, hr⟩ := hm
    have hne : l.dropWhile p ≠ [] := by rw [← hr]; simp
    have hh := List.head_dropWhile_not p l hne
    have ha : (l.dropWhile p).head hne = a := by
      simp [← hr]
    rw [ha] at hh
    simp [List.dropWhile_cons, hh]

theorem trimChars_idem (l : List Char) : trimChars (trimChars l) = trimChars l := by
  have h1 : trimChars l = List.rdropWhile isJsSpace (l.dropWhile isJsSpace) := rfl
  have h2 : (trimChars l).dropWhile isJsSpace = trimChars l :=
    dropWhile_prefix_of_dropWhile isJsSpace l _ (h1 ▸ List.rdropWhile_prefix _ _)
  have h3 : trimChars (trimChars l) =
      List.rdropWhile isJsSpace ((trimChars l).dropWhile isJsSpace) := rfl
  rw [h3, h2, h1, List.rdropWhile_idempotent]

theorem jsTrim_idem (s : String) : jsTrim (jsTrim s) = jsTrim s := by
  simp [jsTrim, trimChars_idem]

theorem jsTrim_empty : jsTrim "" = "" := by decide

theorem digitChar_isDigit (k : Nat) (hk : k < 10) : (Nat.digitChar k).isDigit = true := by
  interval_cases k <;> decide

theorem toDigitsCore_digits (fuel n : Nat) (ds : List Char) :
    ∀ c ∈ Nat.toDigitsCore 10 fuel n ds, c ∈ ds ∨ c.isDigit = true := by
  induction fuel generalizing n ds with
  | zero => intro c hc; exact Or.inl (by simpa [Nat.toDigitsCore] using hc)
  | succ f ih =>
    intro c hc
    have hd : (Nat.digitChar (n % 10)).isDigit = true := digitChar_isDigit _ (Nat.mod_lt _ (by decide))
    simp only [Nat.toDigitsCore] at hc
    split at hc
    · rcases List.mem_cons.1 hc with h | h
      · exact Or.inr (h ▸ hd)
      · exact Or.inl h
    · rcases ih _ _ c hc with h | h
      · rcases List.mem_cons.1 h with h | h
        · exact Or.inr (h ▸ hd)
        · exact Or.inl h
      · exact Or.inr h

theorem natRepr_digits (n : Nat) : ∀ c ∈ (Nat.repr n).data, c.isDigit = true := by
  intro c hc
  have := toDigitsCore_digits (n + 1) n [] c (by simpa [Nat.repr, Nat.toDigits] using hc)
  simpa using this

theorem int_toString_not_status (n : Int) : toString n ∉ statusEnum := by
  intro h
  cases n with
  | ofNat m =>
    have hd := natRepr_digits m
    have h' : Nat.repr m ∈ statusEnum := h
    simp only [statusEnum, List.mem_cons, List.mem_singleton, List.not_mem_nil, or_false] at h'
    rcases h' with h' | h' | h' <;> · rw [h'] at hd; exact absurd (hd 'e' (by decide)) (by decide)
  | negSucc m =>
    have h' : "-" ++ Nat.repr (m + 1) ∈ statusEnum := h
    simp only [statusEnum, List.mem_cons, List.mem_singleton, List.not_mem_nil, or_false] at h'
    have hdata : ∀ t : String, "-" ++ Nat.repr (m + 1) = t → t.data.head? = some '-' := by
      intro t ht; rw [← ht]; simp [String.data_append]
    rcases h' with h' | h' | h' <;> exact absurd (hdata _ h') (by decide)

theorem bool_toString_not_status (b : Bool) : toString b ∉ statusEnum := by
  cases b <;> decide

/-- A value cast to an enum string is that string, or an object whose `_id`
member is that string. -/
theorem castString_status (v : JVal) (st : String) (hv : castString v = some st)
    (hst : st ∈ statusEnum) : v = .str st ∨ v = .other (some st) := by
  cases v with
  | str s => simp [castString] at hv; rw [hv]; exact Or.inl rfl
  | num n => simp [castString] at hv; exact absurd (hv ▸ hst) (int_toString_not_status n)
  | bool b => simp [castString] at hv; exact absurd (hv ▸ hst) (bool_toString_not_status b)
  | undefined => simp [castString] at hv
  | null => simp [castString] at hv
  | other m =>
    cases m with
    | none => simp [castString] at hv
    | some x =>
      by_cases hx : x = ""
      · simp [castString, hx] at hv
      · simp [castString, hx] at hv
        rw [hv]
        exact Or.inr rfl

theorem descriptionArg_cases (v : JVal) (d : String) (h : descriptionArg v = some d) :
    (∃ x, v = .str x ∧ d = jsTrim x) ∨ (v.truthy = false ∧ d = "") := by
  unfold descriptionArg at h
  by_cases ht : v.truthy = true
  · rw [if_pos ht] at h
    cases v <;> simp at h
    exact Or.inl ⟨_, rfl, h.symm⟩
  · rw [if_neg ht] at h
    simp only [Option.some.injEq] at h
    exact Or.inr ⟨by simpa using ht, by rw [← h]; exact jsTrim_empty⟩

theorem taskSchema_some (title d : String) (v : JVal) (f : Fields)
    (h : taskSchema title d v = some f) :
    f.title = jsTrim title ∧ f.title ≠ "" ∧ f.description = jsTrim d ∧
      f.status ∈ statusEnum ∧ (v = .str f.status ∨ v = .other (some f.status)) := by
  unfold taskSchema at h
  split at h
  · exact absurd h (by simp)
  · rename_i st hst
    simp only at h
    split_ifs at h with h1 h2
    simp only [Option.some.injEq] at h
    subst h
    exact ⟨rfl, h1, rfl, h2, castString_status v st hst h2⟩

theorem statusArg_cases (v : JVal) (st : String) (h : statusArg v = .str st) :
    (v = .str st ∧ st ≠ "") ∨ (v.truthy = false ∧ st = "pending") := by
  unfold statusArg at h
  by_cases ht : v.truthy = true
  · rw [if_pos ht] at h
    subst h
    exact Or.inl ⟨rfl, by simpa [JVal.truthy] using ht⟩
  · rw [if_neg ht] at h
    simp only [JVal.str.injEq] at h
    exact Or.inr ⟨by simpa using ht, h.symm⟩

theorem statusArg_other (v : JVal) (m : Option String) (h : statusArg v = .other m) :
    v = .other m := by
  unfold statusArg at h
  by_cases ht : v.truthy = true
  · rwa [if_pos ht] at h
  · rw [if_neg ht] at h
    exact absurd h (by simp)

/-- C4 (amended). A create request answered 201 appends exactly one task to the
collection and returns it: its title is the trimmed request title, its
description the trimmed request description when that is a string and the empty
string when it is absent or another falsy value, its status the request status
when that is a non-empty string, `pending` when it is absent or falsy, and the
`_id` member when the request status is an object with a string `_id`; the
stored status is always one of the three enumerated values. -/
theorem createTask_created (P : Platform) (newId : ObjectId) (now : Nat) (s : Store) (b : Body)
    (h : (createTask P newId now s b).1.code = 201) :
    ∃ title t, b.title = .str title ∧
      createTask P newId now s b = (.task 201 t, s ++ [t]) ∧
      t._id = newId ∧ t.title = jsTrim title ∧
      ((∃ d, b.description = .str d ∧ t.description = some (jsTrim d)) ∨
        (b.description.truthy = false ∧ t.description = some "")) ∧
      ((∃ st, b.status = .str st ∧ st ≠ "" ∧ t.status = st) ∨
        (b.status.truthy = false ∧ t.status = "pending") ∨
        b.status = .other (some t.status)) ∧
      t.status ∈ statusEnum ∧ t.createdAt = now ∧ t.updatedAt = now := by
  cases hb : b.title with
  | str title =>
    by_cases h1 : title = ""
    · simp [createTask, hb, h1, Response.code] at h
    by_cases h2 : P.regexValid (titleRegex (jsTrim title)) = true
    swap
    · simp [createTask, hb, h1, h2, Response.code] at h
    cases hfind : s.find? (fun x => P.regexTest (titleRegex (jsTrim title)) x.title) with
    | some _ => simp [createTask, hb, h1, h2, hfind, Response.code] at h
    | none =>
      cases hd : descriptionArg b.description with
      | none => simp [createTask, hb, h1, h2, hfind, hd, Response.code] at h
      | some d =>
        cases hf : taskSchema (jsTrim title) d (statusArg b.status) with
        | none => simp [createTask, hb, h1, h2, hfind, hd, hf, Response.code] at h
        | some f =>
          by_cases h3 : s.any (fun x => x._id == newId) = true
          · simp [createTask, hb, h1, h2, hfind, hd, hf, h3, Response.code] at h
          · obtain ⟨ft, -, fd, fs, fv⟩ := taskSchema_some _ _ _ _ hf
            refine ⟨title, ⟨newId, f.title, some f.description, f.status, now, now⟩, rfl, ?_,
              rfl, ?_, ?_, ?_, fs, rfl, rfl⟩
            · simp [createTask, hb, h1, h2, hfind, hd, hf, h3]
            · simp only [ft, jsTrim_idem]
            · rcases descriptionArg_cases _ _ hd with ⟨x, hx, hdx⟩ | ⟨hx, hdx⟩
              · exact Or.inl ⟨x, hx, by simp only [fd, hdx, jsTrim_idem]⟩
              · exact Or.inr ⟨hx, by simp only [fd, hdx, jsTrim_empty]⟩
            · rcases fv with fv | fv
              · rcases statusArg_cases _ _ fv with ⟨hx, hne⟩ | ⟨hx, hp⟩
                · exact Or.inl ⟨_, hx, hne, rfl⟩
                · exact Or.inr (Or.inl ⟨hx, hp⟩)
              · exact Or.inr (Or.inr (statusArg_other _ _ fv))
  | undefined => simp [createTask, hb, Response.code] at h
  | null => simp [createTask, hb, Response.code] at h
  | bool _ => simp [createTask, hb, Response.code] at h
  | num _ => simp [createTask, hb, Response.code] at h
  | other _ => simp [createTask, hb, Response.code] at h

/-! ## Lemmas on the collection -/

theorem findById_split (s : Store) (oid : ObjectId) (t : Task) (h : findById s oid = some t) :
    ∃ pre post, s = pre ++ t :: post ∧ (∀ x ∈ pre, x._id ≠ oid) ∧ t._id = oid := by
  induction s with
  | nil => simp [findById] at h
  | cons x xs ih =>
    by_cases hx : x._id = oid
    · have : t = x := by simpa [findById, List.find?_cons, hx] using h.symm
      subst this
      exact ⟨[], xs, rfl, by simp, hx⟩
    · have h' : findById xs oid = some t := by
        simpa [findById, List.find?_cons, hx] using h
      obtain ⟨pre, post, hs, hpre, ht⟩ := ih h'
      refine ⟨x :: pre, post, by rw [hs]; rfl, ?_, ht⟩
      intro y hy
      rcases List.mem_cons.1 hy with hy | hy
      · exact hy ▸ hx
      · exact hpre y hy

theorem findById_none (s : Store) (oid : ObjectId) :
    findById s oid = none ↔ ∀ x ∈ s, x._id ≠ oid := by
  simp [findById, List.find?_eq_none]

theorem findById_append_cons (pre post : Store) (t : Task) (oid : ObjectId)
    (hpre : ∀ x ∈ pre, x._id ≠ oid) (ht : t._id = oid) :
    findById (pre ++ t :: post) oid = some t := by
  induction pre with
  | nil => simp [findById, List.find?_cons, ht]
  | cons x xs ih =>
    have hx : x._id ≠ oid := hpre x (List.mem_cons_self _ _)
    have := ih (fun y hy => hpre y (List.mem_cons_of_mem _ hy))
    simpa [findById, List.find?_cons, hx] using this

theorem updateFirst_append_cons (pre post : Store) (t : Task) (oid : ObjectId) (f : Task → Task)
    (hpre : ∀ x ∈ pre, x._id ≠ oid) (ht : t._id = oid) :
    updateFirst oid f (pre ++ t :: post) = pre ++ f t :: post := by
  induction pre with
  | nil => simp [updateFirst, ht]
  | cons x xs ih =>
    have hx : x._id ≠ oid := hpre x (List.mem_cons_self _ _)
    have := ih (fun y hy => hpre y (List.mem_cons_of_mem _ hy))
    simp [updateFirst, hx, this]

theorem eraseP_append_cons (pre post : Store) (t : Task) (oid : ObjectId)
    (hpre : ∀ x ∈ pre, x._id ≠ oid) (ht : t._id = oid) :
    (pre ++ t :: post).eraseP (fun x => x._id == oid) = pre ++ post := by
  induction pre with
  | nil => simp [List.eraseP_cons, ht]
  | cons x xs ih =>
    have hx : x._id ≠ oid := hpre x (List.mem_cons_self _ _)
    have := ih (fun y hy => hpre y (List.mem_cons_of_mem _ hy))
    simp [List.eraseP_cons, hx, this]

theorem uniqueIds_others (pre post : Store) (t : Task) (h : UniqueIds (pre ++ t :: post)) :
    ∀ x ∈ pre ++ post, x._id ≠ t._id := by
  unfold UniqueIds at h
  rw [List.map_append, List.map_cons, List.nodup_middle, List.nodup_cons, ← List.map_append] at h
  intro x hx hxt
  exact h.1 (hxt ▸ List.mem_map_of_mem _ hx)

theorem taskSchemaUpdate_some (u v : Updates) (h : taskSchemaUpdate u = some v) :
    v.title = u.title.map jsTrim ∧ v.description = u.description.map jsTrim ∧
      v.status = u.status ∧ (∀ st, u.status = some st → st ∈ statusEnum) := by
  unfold taskSchemaUpdate at h
  simp only at h
  split_ifs at h with h1
  cases hs : u.status with
  | none =>
    simp only [hs, Option.some.injEq] at h
    subst h
    exact ⟨rfl, rfl, rfl, by simp⟩
  | some st =>
    simp only [hs] at h
    split_ifs at h with h2
    simp only [Option.some.injEq] at h
    subst h
    refine ⟨rfl, rfl, rfl, ?_⟩
    intro st' hst'
    simp only [Option.some.injEq] at hst'
    exact hst' ▸ h2

theorem findByIdAndUpdate_ok (P : Platform) (now : Nat) (s : Store) (id : String) (u : Updates)
    (h : (findByIdAndUpdate P now s id u).1.code = 200) :
    ∃ oid v t, P.castObjectId id = some oid ∧ taskSchemaUpdate u = some v ∧
      findById s oid = some t ∧
      findByIdAndUpdate P now s id u =
        (.task 200 (applyUpdates v now t), updateFirst oid (applyUpdates v now) s) := by
  cases hc : P.castObjectId id with
  | none => simp [findByIdAndUpdate, hc, Response.code] at h
  | some oid =>
    cases hv : taskSchemaUpdate u with
    | none => simp [findByIdAndUpdate, hc, hv, Response.code] at h
    | some v =>
      cases hf : findById s oid with
      | none => simp [findByIdAndUpdate, hc, hv, hf, Response.code] at h
      | some t => exact ⟨oid, v, t, rfl, rfl, hf, by simp [findByIdAndUpdate, hc, hv, hf]⟩

theorem updateTask_ok_eq (P : Platform) (now : Nat) (s : Store) (id : String) (b : Body)
    (h : (updateTask P now s id b).1.code = 200) :
    updateTask P now s id b = findByIdAndUpdate P now s id (updatesOf b) := by
  unfold updateTask at h ⊢
  simp only at h ⊢
  cases ht : (updatesOf b).title with
  | none => rfl
  | some t =>
    simp only [ht] at h ⊢
    by_cases h1 : t = ""
    · simp [h1]
    · simp only [h1, if_false] at h ⊢
      by_cases h2 : P.regexValid (titleRegex t) = true
      swap
      · simp [h2, Response.code] at h
      · cases hc : P.castObjectId id with
        | none => simp [h2, hc, Response.code] at h
        | some oid =>
          cases hf : s.find? (fun x => x._id != oid && P.regexTest (titleRegex t) x.title) with
          | some _ => simp [h2, hc, hf, Response.code] at h
          | none => simp [h2, hf]

/-- C6. An update answered 200 replaces exactly one document, the first one
carrying the requested identifier, and returns it: each of title, description
and status holds the body value (trimmed for title and description) when that
body field is a string and the previous value otherwise; the identifier is kept
and every other document, and the order, is unchanged. -/
theorem updateTask_ok (P : Platform) (now : Nat) (s : Store) (id : String) (b : Body)
    (h : (updateTask P now s id b).1.code = 200) :
    ∃ oid old new pre post,
      P.castObjectId id = some oid ∧ old._id = oid ∧
      s = pre ++ old :: post ∧ (∀ x ∈ pre, x._id ≠ oid) ∧
      updateTask P now s id b = (.task 200 new, pre ++ new :: post) ∧
      findById (updateTask P now s id b).2 oid = some new ∧
      new._id = old._id ∧
      new.title = (match b.title with
        | .str t => jsTrim t
        | _ => old.title) ∧
      new.description = (match b.description with
        | .str d => some (jsTrim d)
        | _ => old.description) ∧
      new.status = (match b.status with
        | .str st => st
        | _ => old.status) := by
  have he := updateTask_ok_eq P now s id b h
  rw [he] at h
  obtain ⟨oid, v, old, hc, hv, hf, hr⟩ := findByIdAndUpdate_ok P now s id _ h
  obtain ⟨pre, post, hs, hpre, hold⟩ := findById_split s oid old hf
  obtain ⟨vt, vd, vs, -⟩ := taskSchemaUpdate_some _ _ hv
  have hstore : updateFirst oid (applyUpdates v now) s = pre ++ applyUpdates v now old :: post := by
    rw [hs]; exact updateFirst_append_cons pre post old oid _ hpre hold
  refine ⟨oid, old, applyUpdates v now old, pre, post, hc, hold, hs, hpre, ?_, ?_, rfl, ?_, ?_, ?_⟩
  · rw [he, hr, hstore]
  · rw [he, hr, hstore]
    exact findById_append_cons pre post _ oid hpre hold
  · cases hb : b.title <;> simp [applyUpdates, vt, updatesOf, hb, jsTrim_idem]
  · cases hb : b.description <;> simp [applyUpdates, vd, updatesOf, hb, jsTrim_idem]
  · cases hb : b.status <;> simp [applyUpdates, vs, updatesOf, hb]

theorem findById_cons (x : Task) (xs : Store) (oid : ObjectId) :
    findById (x :: xs) oid = if x._id = oid then some x else findById xs oid := by
  unfold findById
  rw [List.find?_cons]
  by_cases hx : x._id = oid
  · simp [hx]
  · have hb : (x._id == oid) = false := by simpa using hx
    simp [hx, hb]

theorem retitleOthers_cons (target : Option ObjectId) (f : Task → String) (x : Task) (xs : Store) :
    retitleOthers target f (x :: xs) =
      (if some x._id = target then x else { x with title := f x }) ::
        retitleOthers target f xs := rfl

theorem findById_retitleOthers (oid : ObjectId) (f : Task → String) (s : Store) :
    findById (retitleOthers (some oid) f s) oid = findById s oid := by
  induction s with
  | nil => rfl
  | cons x xs ih =>
    rw [retitleOthers_cons, findById_cons, findById_cons, ih]
    by_cases hx : x._id = oid
    · simp [hx]
    · simp [hx]

theorem updateFirst_retitleOthers (oid : ObjectId) (f : Task → String) (g : Task → Task)
    (hg : ∀ x, (g x)._id = x._id) (s : Store) :
    updateFirst oid g (retitleOthers (some oid) f s) =
      retitleOthers (some oid) f (updateFirst oid g s) := by
  induction s with
  | nil => rfl
  | cons x xs ih =>
    rw [retitleOthers_cons]
    by_cases hx : x._id = oid
    · simp only [hx, if_true, updateFirst, beq_self_eq_true, retitleOthers_cons, hg]
    · have hx' : ¬ some x._id = some oid := fun h => hx (Option.some.inj h)
      simp only [hx', if_false, updateFirst, beq_iff_eq, hx, retitleOthers_cons, ih]

theorem findByIdAndUpdate_retitleOthers (P : Platform) (now : Nat) (s : Store) (id : String)
    (u : Updates) (f : Task → String) :
    findByIdAndUpdate P now (retitleOthers (P.castObjectId id) f s) id u =
      ((findByIdAndUpdate P now s id u).1,
        retitleOthers (P.castObjectId id) f (findByIdAndUpdate P now s id u).2) := by
  cases hc : P.castObjectId id with
  | none => simp [findByIdAndUpdate, hc]
  | some oid =>
    cases hv : taskSchemaUpdate u with
    | none => simp [findByIdAndUpdate, hc, hv]
    | some v =>
      cases hf : findById s oid with
      | none => simp [findByIdAndUpdate, hc, hv, hf, findById_retitleOthers]
      | some t =>
        simp only [findByIdAndUpdate, hc, hv, hf, findById_retitleOthers]
        rw [updateFirst_retitleOthers oid f (applyUpdates v now) (fun _ => rfl)]

/-- C7. An update whose body has no string title performs no uniqueness check:
it never answers with the duplicate-title conflict, and replacing the titles of
all other documents in the collection changes neither the response nor, apart
from those titles, the resulting collection. -/
theorem updateTask_without_title (P : Platform) (now : Nat) (s : Store) (id : String) (b : Body)
    (ht : ∀ t, b.title ≠ .str t) :
    (updateTask P now s id b).1 ≠ .message 400 "A task with this title already exists." ∧
    ∀ f : Task → String,
      updateTask P now (retitleOthers (P.castObjectId id) f s) id b =
        ((updateTask P now s id b).1,
          retitleOthers (P.castObjectId id) f (updateTask P now s id b).2) := by
  have hu : (updatesOf b).title = none := by
    cases hb : b.title <;> simp [updatesOf, hb]
    exact ht _ hb
  have he : ∀ s', updateTask P now s' id b = findByIdAndUpdate P now s' id (updatesOf b) := by
    intro s'
    simp [updateTask, hu]
  refine ⟨?_, fun f => ?_⟩
  · rw [he]
    cases hc : P.castObjectId id with
    | none => simp [findByIdAndUpdate, hc]
    | some oid =>
      cases hv : taskSchemaUpdate (updatesOf b) with
      | none => simp [findByIdAndUpdate, hc, hv]
      | some v => cases hf : findById s oid <;> simp [findByIdAndUpdate, hc, hv, hf]
  · rw [he, he]
    exact findByIdAndUpdate_retitleOthers P now s id _ f

/-- C8 (amended). Fetching by identifier leaves the collection unchanged and
answers 200 with the stored task when the identifier is well formed and names
one, 404 `Task not found` when it is well formed and names none, and 500 when
it is malformed. -/
theorem getTaskById_spec (P : Platform) (s : Store) (id : String) :
    (getTaskById P s id).2 = s ∧
    (∀ oid, P.castObjectId id = some oid →
      (∃ t, t ∈ s ∧ t._id = oid ∧ (getTaskById P s id).1 = .task 200 t) ∨
      ((∀ t ∈ s, t._id ≠ oid) ∧ (getTaskById P s id).1 = .message 404 "Task not found")) ∧
    (P.castObjectId id = none →
      (getTaskById P s id).1 = .message 500 "Server error while fetching task") := by
  refine ⟨?_, ?_, ?_⟩
  · cases hc : P.castObjectId id with
    | none => simp [getTaskById, hc]
    | some oid => cases hf : findById s oid <;> simp [getTaskById, hc, hf]
  · intro oid hc
    cases hf : findById s oid with
    | none =>
      exact Or.inr ⟨(findById_none s oid).1 hf, by simp [getTaskById, hc, hf]⟩
    | some t =>
      obtain ⟨pre, post, hs, -, ht⟩ := findById_split s oid t hf
      exact Or.inl ⟨t, by simp [hs], ht, by simp [getTaskById, hc, hf]⟩
  · intro hc
    simp [getTaskById, hc]

/-- C9 (amended). On a collection with unique identifiers: a delete answered
200 removes exactly the document with the requested identifier, keeps every
other document and the order, and a following fetch of the same identifier
answers 404; deleting a well-formed identifier that names no stored task
answers 404, deleting a malformed one answers 500, and both leave the
collection unchanged. -/
theorem deleteTask_spec (P : Platform) (s : Store) (id : String) (hu : UniqueIds s) :
    ((deleteTask P s id).1.code = 200 →
      ∃ oid old pre post, P.castObjectId id = some oid ∧ old._id = oid ∧
        s = pre ++ old :: post ∧
        deleteTask P s id = (.message 200 "Task deleted successfully", pre ++ post) ∧
        (∀ x ∈ pre ++ post, x._id ≠ oid) ∧
        (getTaskById P (deleteTask P s id).2 id).1 = .message 404 "Task not found") ∧
    (∀ oid, P.castObjectId id = some oid → (∀ x ∈ s, x._id ≠ oid) →
      deleteTask P s id = (.message 404 "Task not found", s)) ∧
    (P.castObjectId id = none →
      deleteTask P s id = (.message 500 "Server error while deleting task", s)) := by
  refine ⟨?_, ?_, ?_⟩
  · intro h
    cases hc : P.castObjectId id with
    | none => simp [deleteTask, hc, Response.code] at h
    | some oid =>
      cases hf : findById s oid with
      | none => simp [deleteTask, hc, hf, Response.code] at h
      | some old =>
        obtain ⟨pre, post, hs, hpre, hold⟩ := findById_split s oid old hf
        have hothers : ∀ x ∈ pre ++ post, x._id ≠ oid := by
          have := uniqueIds_others pre post old (hs ▸ hu)
          rwa [hold] at this
        have hdel : deleteTask P s id =
            (.message 200 "Task deleted successfully", pre ++ post) := by
          simp only [deleteTask, hc, hf]
          rw [hs, eraseP_append_cons pre post old oid hpre hold]
        refine ⟨oid, old, pre, post, rfl, hold, hs, hdel, hothers, ?_⟩
        rw [hdel]
        simp [getTaskById, hc, (findById_none (pre ++ post) oid).2 hothers]
  · intro oid hc hno
    simp [deleteTask, hc, (findById_none s oid).2 hno]
  · intro hc
    simp [deleteTask, hc]

/-! ## Listing -/

theorem insertDesc_perm (t : Task) (l : List Task) : (insertDesc t l).Perm (t :: l) := by
  induction l with
  | nil => exact List.Perm.refl _
  | cons x xs ih =>
    unfold insertDesc
    split_ifs
    · exact List.Perm.refl _
    · exact (List.Perm.cons x ih).trans (List.Perm.swap t x xs)

theorem insertDesc_sorted (t : Task) (l : List Task)
    (h : l.Pairwise (fun a b => b.createdAt ≤ a.createdAt)) :
    (insertDesc t l).Pairwise (fun a b => b.createdAt ≤ a.createdAt) := by
  induction l with
  | nil => simp [insertDesc]
  | cons x xs ih =>
    unfold insertDesc
    have hx := List.pairwise_cons.1 h
    split_ifs with hle
    · refine List.pairwise_cons.2 ⟨?_, h⟩
      intro y hy
      rcases List.mem_cons.1 hy with hy | hy
      · exact hy ▸ hle
      · exact (hx.1 y hy).trans hle
    · refine List.pairwise_cons.2 ⟨?_, ih hx.2⟩
      intro y hy
      rcases List.mem_cons.1 ((insertDesc_perm t xs).subset hy) with hy | hy
      · exact hy ▸ (Nat.le_of_lt (Nat.lt_of_not_le hle))
      · exact hx.1 y hy

theorem sortCreatedAtDesc_perm (s : List Task) : (sortCreatedAtDesc s).Perm s := by
  induction s with
  | nil => exact List.Perm.refl _
  | cons x xs ih => exact (insertDesc_perm x _).trans (List.Perm.cons x ih)

theorem sortCreatedAtDesc_sorted (s : List Task) :
    (sortCreatedAtDesc s).Pairwise (fun a b => b.createdAt ≤ a.createdAt) := by
  induction s with
  | nil => exact List.Pairwise.nil
  | cons x xs ih => exact insertDesc_sorted x _ ih

/-- C10. Listing answers 200 with a permutation of the collection (every stored
task exactly once, nothing filtered), leaves the collection unchanged, and
orders the answer by creation time, newest first: at positions `i < j` the
`createdAt` of the task at `i` is at least that of the task at `j`. -/
theorem getTasks_sorted (s : Store) :
    ∃ ts, getTasks s = (.tasks 200 ts, s) ∧ ts.Perm s ∧
      ∀ i j : Fin ts.length, i < j → (ts.get j).createdAt ≤ (ts.get i).createdAt := by
  refine ⟨sortCreatedAtDesc s, rfl, sortCreatedAtDesc_perm s, ?_⟩
  exact List.pairwise_iff_get.1 (sortCreatedAtDesc_sorted s)

/-! ## Rejected status values -/

theorem taskSchema_bad_status (title d st : String) (hne : st ∉ statusEnum) :
    taskSchema title d (.str st) = none := by
  simp [taskSchema, castString, hne]

theorem taskSchemaUpdate_bad_status (u : Updates) (st : String) (hu : u.status = some st)
    (hne : st ∉ statusEnum) : taskSchemaUpdate u = none := by
  simp [taskSchemaUpdate, hu, hne]

theorem findByIdAndUpdate_invalid (P : Platform) (now : Nat) (s : Store) (id : String)
    (u : Updates) (hu : taskSchemaUpdate u = none) :
    findByIdAndUpdate P now s id u = (.message 500 "Server error while updating task", s) := by
  cases hc : P.castObjectId id <;> simp [findByIdAndUpdate, hc, hu]

theorem createTask_bad_status (P : Platform) (newId : ObjectId) (now : Nat) (s : Store) (b : Body)
    (st : String) (hst : b.status = .str st) (hne : st ∉ statusEnum) (he : st ≠ "") :
    (createTask P newId now s b).2 = s ∧ (createTask P newId now s b).1.code ≠ 201 ∧
    (∀ title, b.title = .str title → title ≠ "" →
      (∀ x ∈ s, P.regexTest (titleRegex (jsTrim title)) x.title = false) →
      (createTask P newId now s b).1 = .message 500 "Server error while creating task") := by
  have hsa : statusArg b.status = .str st := by simp [statusArg, hst, JVal.truthy, he]
  cases hb : b.title with
  | str title =>
    by_cases h1 : title = ""
    · simp [createTask, hb, h1, Response.code]
    by_cases h2 : P.regexValid (titleRegex (jsTrim title)) = true
    swap
    · simp [createTask, hb, h1, h2, Response.code]
    cases hfind : s.find? (fun x => P.regexTest (titleRegex (jsTrim title)) x.title) with
    | some y =>
      refine ⟨by simp [createTask, hb, h1, h2, hfind], by simp [createTask, hb, h1, h2, hfind, Response.code], ?_⟩
      intro title' ht' _ hno
      cases ht'
      have := List.find?_some hfind
      have hy := hno y (List.mem_of_find?_eq_some hfind)
      simp [hy] at this
    | none =>
      cases hd : descriptionArg b.description with
      | none => simp [createTask, hb, h1, h2, hfind, hd, Response.code]
      | some d =>
        simp [createTask, hb, h1, h2, hfind, hd, hsa, taskSchema_bad_status _ _ _ hne,
          Response.code]
  | undefined => simp [createTask, hb, Response.code]
  | null => simp [createTask, hb, Response.code]
  | bool _ => simp [createTask, hb, Response.code]
  | num _ => simp [createTask, hb, Response.code]
  | other _ => simp [createTask, hb, Response.code]

theorem updateTask_bad_status (P : Platform) (now : Nat) (s : Store) (id : String) (b : Body)
    (st : String) (hst : b.status = .str st) (hne : st ∉ statusEnum) :
    (updateTask P now s id b).2 = s ∧ (updateTask P now s id b).1.code ≠ 200 ∧
    ((∀ title, b.title = .str title → ∀ oid, P.castObjectId id = some oid →
        ∀ x ∈ s, x._id ≠ oid → P.regexTest (titleRegex (jsTrim title)) x.title = false) →
      (updateTask P now s id b).1 = .message 500 "Server error while updating task") := by
  have hu : taskSchemaUpdate (updatesOf b) = none :=
    taskSchemaUpdate_bad_status _ st (by simp [updatesOf, hst]) hne
  have hf := findByIdAndUpdate_invalid P now s id _ hu
  cases ht : (updatesOf b).title with
  | none => simp [updateTask, ht, hf, Response.code]
  | some t =>
    by_cases h1 : t = ""
    · simp [updateTask, ht, h1, hf, Response.code]
    by_cases h2 : P.regexValid (titleRegex t) = true
    swap
    · simp [updateTask, ht, h1, h2, Response.code]
    cases hc : P.castObjectId id with
    | none => simp [updateTask, ht, h1, h2, hc, Response.code]
    | some oid =>
      cases hfind : s.find? (fun x => x._id != oid && P.regexTest (titleRegex t) x.title) with
      | none => simp [updateTask, ht, h1, h2, hc, hfind, hf, Response.code]
      | some y =>
        refine ⟨by simp [updateTask, ht, h1, h2, hc, hfind],
          by simp [updateTask, ht, h1, h2, hc, hfind, Response.code], ?_⟩
        intro hno
        have hy := List.find?_some hfind
        have hmem := List.mem_of_find?_eq_some hfind
        cases hb : b.title with
        | str title =>
          have htt : t = jsTrim title := by simpa [updatesOf, hb] using ht.symm
          have hy' : y._id ≠ oid ∧ P.regexTest (titleRegex t) y.title = true := by
            simpa using hy
          have hfalse := hno title hb oid rfl y hmem hy'.1
          rw [← htt, hy'.2] at hfalse
          exact absurd hfalse (by simp)
        | undefined => simp [updatesOf, hb] at ht
        | null => simp [updatesOf, hb] at ht
        | bool _ => simp [updatesOf, hb] at ht
        | num _ => simp [updatesOf, hb] at ht
        | other _ => simp [updatesOf, hb] at ht

/-- C5 (amended). A create or update request whose status is a string outside
the enumeration (for create: other than the empty string, which is treated as
omitted) never succeeds and leaves the collection unchanged; when the title
passes the handler's own checks (create: a non-empty string with no stored
title matched by the duplicate check; update: no title of another task, one
whose identifier is not the requested one, matched by the duplicate check) the
answer is status 500 with the generic server-error message. -/
theorem invalid_status_rejected (P : Platform) (s : Store) (b : Body) (st : String)
    (hst : b.status = .str st) (hne : st ∉ statusEnum) :
    (st ≠ "" → ∀ newId now,
      (createTask P newId now s b).2 = s ∧ (createTask P newId now s b).1.code ≠ 201 ∧
      (∀ title, b.title = .str title → title ≠ "" →
        (∀ x ∈ s, P.regexTest (titleRegex (jsTrim title)) x.title = false) →
        (createTask P newId now s b).1 = .message 500 "Server error while creating task")) ∧
    (∀ now id,
      (updateTask P now s id b).2 = s ∧ (updateTask P now s id b).1.code ≠ 200 ∧
      ((∀ title, b.title = .str title → ∀ oid, P.castObjectId id = some oid →
          ∀ x ∈ s, x._id ≠ oid → P.regexTest (titleRegex (jsTrim title)) x.title = false) →
        (updateTask P now s id b).1 = .message 500 "Server error while updating task")) :=
  ⟨fun he newId now => createTask_bad_status P newId now s b st hst hne he,
    fun now id => updateTask_bad_status P now s id b st hst hne⟩

/-! ## Unique identifiers are preserved -/

theorem createTask_store (P : Platform) (newId : ObjectId) (now : Nat) (s : Store) (b : Body) :
    (createTask P newId now s b).2 = s ∨
      ∃ t, t._id = newId ∧ (∀ x ∈ s, x._id ≠ newId) ∧ (createTask P newId now s b).2 = s ++ [t] := by
  cases hb : b.title with
  | str title =>
    by_cases h1 : title = ""
    · simp [createTask, hb, h1]
    by_cases h2 : P.regexValid (titleRegex (jsTrim title)) = true
    swap
    · simp [createTask, hb, h1, h2]
    cases hfind : s.find? (fun x => P.regexTest (titleRegex (jsTrim title)) x.title) with
    | some _ => simp [createTask, hb, h1, h2, hfind]
    | none =>
      cases hd : descriptionArg b.description with
      | none => simp [createTask, hb, h1, h2, hfind, hd]
      | some d =>
        cases hf : taskSchema (jsTrim title) d (statusArg b.status) with
        | none => simp [createTask, hb, h1, h2, hfind, hd, hf]
        | some f =>
          by_cases h3 : s.any (fun x => x._id == newId) = true
          · simp [createTask, hb, h1, h2, hfind, hd, hf, h3]
          · refine Or.inr ⟨⟨newId, f.title, some f.description, f.status, now, now⟩, rfl, ?_, ?_⟩
            · simpa using h3
            · simp [createTask, hb, h1, h2, hfind, hd, hf, h3]
  | undefined => simp [createTask, hb]
  | null => simp [createTask, hb]
  | bool _ => simp [createTask, hb]
  | num _ => simp [createTask, hb]
  | other _ => simp [createTask, hb]

theorem updateFirst_ids (oid : ObjectId) (f : Task → Task) (hf : ∀ x, (f x)._id = x._id)
    (s : Store) : (updateFirst oid f s).map Task._id = s.map Task._id := by
  induction s with
  | nil => rfl
  | cons x xs ih =>
    by_cases hx : x._id = oid
    · simp [updateFirst, hx, hf]
    · simp [updateFirst, hx, ih]

theorem findByIdAndUpdate_ids (P : Platform) (now : Nat) (s : Store) (id : String) (u : Updates) :
    (findByIdAndUpdate P now s id u).2.map Task._id = s.map Task._id := by
  cases hc : P.castObjectId id with
  | none => simp [findByIdAndUpdate, hc]
  | some oid =>
    cases hv : taskSchemaUpdate u with
    | none => simp [findByIdAndUpdate, hc, hv]
    | some v =>
      cases hf : findById s oid with
      | none => simp [findByIdAndUpdate, hc, hv, hf]
      | some t =>
        simp only [findByIdAndUpdate, hc, hv, hf]
        exact updateFirst_ids oid (applyUpdates v now) (fun _ => rfl) s

theorem updateTask_ids (P : Platform) (now : Nat) (s : Store) (id : String) (b : Body) :
    (updateTask P now s id b).2.map Task._id = s.map Task._id := by
  have hf := findByIdAndUpdate_ids P now s id (updatesOf b)
  cases ht : (updatesOf b).title with
  | none => simpa [updateTask, ht] using hf
  | some t =>
    by_cases h1 : t = ""
    · simpa [updateTask, ht, h1] using hf
    by_cases h2 : P.regexValid (titleRegex t) = true
    swap
    · simp [updateTask, ht, h1, h2]
    cases hc : P.castObjectId id with
    | none => simp [updateTask, ht, h1, h2, hc]
    | some oid =>
      cases hfind : s.find? (fun x => x._id != oid && P.regexTest (titleRegex t) x.title) with
      | none => simpa [updateTask, ht, h1, h2, hc, hfind] using hf
      | some y => simp [updateTask, ht, h1, h2, hc, hfind]

theorem deleteTask_sublist (P : Platform) (s : Store) (id : String) :
    (deleteTask P s id).2.Sublist s := by
  cases hc : P.castObjectId id with
  | none => simp [deleteTask, hc]
  | some oid =>
    cases hf : findById s oid with
    | none => simp [deleteTask, hc, hf]
    | some t =>
      simp only [deleteTask, hc, hf]
      exact List.eraseP_sublist s

/-- Every mutating request keeps the identifiers of the collection distinct. -/
theorem step_uniqueIds (P : Platform) (s : Store) (r : Request) (h : UniqueIds s) :
    UniqueIds (step P s r) := by
  cases r with
  | create newId now b =>
    rcases createTask_store P newId now s b with he | ⟨t, ht, hno, he⟩
    · simpa [step, he] using h
    · unfold UniqueIds at h ⊢
      simp only [step, he, List.map_append, List.map_cons, List.map_nil]
      refine List.Nodup.append h (List.nodup_singleton _) ?_
      intro a ha hb
      obtain ⟨x, hx, rfl⟩ := List.mem_map.1 ha
      exact hno x hx ((List.mem_singleton.1 hb).trans ht)
  | update now id b =>
    unfold UniqueIds at h ⊢
    simpa [step, updateTask_ids] using h
  | delete id =>
    unfold UniqueIds at h ⊢
    exact ((deleteTask_sublist P s id).map Task._id).nodup h

/-- Every collection reached from the empty one has distinct identifiers. -/
theorem run_uniqueIds (P : Platform) (rs : List Request) (s : Store) (h : UniqueIds s) :
    UniqueIds (run P s rs) := by
  induction rs generalizing s with
  | nil => exact h
  | cons r rs ih => exact ih _ (step_uniqueIds P s r h)

/-! ## Evaluations on the reference platform -/

/-- The scenario of the specification: create `Write report` (201, pending,
empty description), create `write report` (400 conflict), update the first task
to `completed` (200, title kept), delete it (200), fetch it (404). -/
theorem spec_scenario :
    createTask refPlatform idA 1 [] (titleOnly "Write report") =
        (.task 201 (pendingTask idA "Write report" 1), [pendingTask idA "Write report" 1]) ∧
    createTask refPlatform idB 2 [pendingTask idA "Write report" 1] (titleOnly "write report") =
        (.message 400 "A task with this title already exists.",
          [pendingTask idA "Write report" 1]) ∧
    updateTask refPlatform 3 [pendingTask idA "Write report" 1] idA (statusOnly "completed") =
        (.task 200 ⟨idA, "Write report", some "", "completed", 1, 3⟩,
          [⟨idA, "Write report", some "", "completed", 1, 3⟩]) ∧
    deleteTask refPlatform [⟨idA, "Write report", some "", "completed", 1, 3⟩] idA =
        (.message 200 "Task deleted successfully", []) ∧
    getTaskById refPlatform [] idA = (.message 404 "Task not found", []) := by
  decide

/-- C1. The collection holds a task titled `What?`; a create request with the
very same title is answered 201 and a second task with that title is stored:
the title is placed unescaped in the regular expression, where `?` is a
quantifier, so the stored title is not matched. -/
theorem createTask_duplicate_accepted :
    createTask refPlatform idB 2 [pendingTask idA "What?" 1] (titleOnly "What?") =
      (.task 201 (pendingTask idB "What?" 2),
        [pendingTask idA "What?" 1, pendingTask idB "What?" 2]) := by
  decide

/-- C2. Starting from the empty collection, two create requests with the title
`What?` leave two distinct tasks with the same title in the collection. -/
theorem run_duplicate_titles :
    run refPlatform [] [.create idA 1 (titleOnly "What?"), .create idB 2 (titleOnly "What?")] =
        [pendingTask idA "What?" 1, pendingTask idB "What?" 2] ∧
      (pendingTask idA "What?" 1)._id ≠ (pendingTask idB "What?" 2)._id ∧
      (pendingTask idA "What?" 1).title = (pendingTask idB "What?" 2).title := by
  decide

/-- C3. A create request whose title is three blanks is answered 500 with the
generic server-error message, not with a validation error; nothing is
stored. -/
theorem createTask_blank_title :
    createTask refPlatform idA 1 [] (titleOnly "   ") =
      (.message 500 "Server error while creating task", []) := by
  decide

/-- C4, as stated, fails: a create request with status `""` is answered 201 and
the stored status is `pending`, not the status of the request. -/
theorem createTask_empty_status :
    createTask refPlatform idA 1 [] (titleStatus "x" "") =
        (.task 201 (pendingTask idA "x" 1), [pendingTask idA "x" 1]) ∧
      JVal.str (pendingTask idA "x" 1).status ≠ (titleStatus "x" "").status := by
  decide

/-- Witness of C4: the create request of the specification scenario. -/
theorem createTask_created_witness :
    (createTask refPlatform idA 1 [] (titleOnly "Write report")).1.code = 201 ∧
    ∃ title t, (titleOnly "Write report").title = .str title ∧
      createTask refPlatform idA 1 [] (titleOnly "Write report") = (.task 201 t, [] ++ [t]) ∧
      t._id = idA ∧ t.title = jsTrim title ∧
      ((∃ d, (titleOnly "Write report").description = .str d ∧
          t.description = some (jsTrim d)) ∨
        ((titleOnly "Write report").description.truthy = false ∧ t.description = some "")) ∧
      ((∃ st, (titleOnly "Write report").status = .str st ∧ st ≠ "" ∧ t.status = st) ∨
        ((titleOnly "Write report").status.truthy = false ∧ t.status = "pending") ∨
        (titleOnly "Write report").status = .other (some t.status)) ∧
      t.status ∈ statusEnum ∧ t.createdAt = 1 ∧ t.updatedAt = 1 :=
  ⟨by decide, createTask_created refPlatform idA 1 [] (titleOnly "Write report") (by decide)⟩

/-- C5, as stated, fails: a create request with the unrecognised status `done`
and a fresh title is answered 500, not 400. -/
theorem createTask_unknown_status :
    createTask refPlatform idA 1 [] (titleStatus "x" "done") =
        (.message 500 "Server error while creating task", []) ∧
      (createTask refPlatform idA 1 [] (titleStatus "x" "done")).1.code ≠ 400 := by
  decide

/-- Witness of C5: status `done` on create and on an update that sends the
stored task its own title. -/
theorem invalid_status_rejected_witness :
    (titleStatus "y" "done").status = .str "done" ∧ "done" ∉ statusEnum ∧
    (createTask refPlatform idA 1 [] (titleStatus "y" "done")).1 =
      .message 500 "Server error while creating task" ∧
    (updateTask refPlatform 2 [pendingTask idA "y" 1] idA (titleStatus "y" "done")).1 =
      .message 500 "Server error while updating task" ∧
    (updateTask refPlatform 2 [pendingTask idA "y" 1] idA (titleStatus "y" "done")).2 =
      [pendingTask idA "y" 1] :=
  ⟨rfl, by decide,
    ((invalid_status_rejected refPlatform [] (titleStatus "y" "done") "done" rfl
      (by decide)).1 (by decide) idA 1).2.2 "y" rfl (by decide) (by simp),
    ((invalid_status_rejected refPlatform [pendingTask idA "y" 1] (titleStatus "y" "done") "done"
      rfl (by decide)).2 2 idA).2.2
      (by
        intro title _ oid hc x hx hne
        have ho : oid = idA := by
          have hd : refPlatform.castObjectId idA = some idA := by decide
          exact (Option.some.inj (hc.symm.trans hd))
        rw [List.mem_singleton.1 hx] at hne
        exact absurd (ho ▸ rfl) hne),
    ((invalid_status_rejected refPlatform [pendingTask idA "y" 1] (titleStatus "y" "done") "done"
      rfl (by decide)).2 2 idA).1⟩

/-- Witness of C6: the update of the specification scenario, body
`status: completed` only; title and description are kept. -/
theorem updateTask_ok_witness :
    (updateTask refPlatform 3 [pendingTask idA "Write report" 1] idA
      (statusOnly "completed")).1.code = 200 ∧
    ∃ oid old new pre post,
      refPlatform.castObjectId idA = some oid ∧ old._id = oid ∧
      [pendingTask idA "Write report" 1] = pre ++ old :: post ∧ (∀ x ∈ pre, x._id ≠ oid) ∧
      updateTask refPlatform 3 [pendingTask idA "Write report" 1] idA (statusOnly "completed") =
        (.task 200 new, pre ++ new :: post) ∧
      findById (updateTask refPlatform 3 [pendingTask idA "Write report" 1] idA
        (statusOnly "completed")).2 oid = some new ∧
      new._id = old._id ∧
      new.title = (match (statusOnly "completed").title with
        | .str t => jsTrim t
        | _ => old.title) ∧
      new.description = (match (statusOnly "completed").description with
        | .str d => some (jsTrim d)
        | _ => old.description) ∧
      new.status = (match (statusOnly "completed").status with
        | .str st => st
        | _ => old.status) :=
  ⟨by decide, updateTask_ok refPlatform 3 [pendingTask idA "Write report" 1] idA
    (statusOnly "completed") (by decide)⟩

/-- Witness of C7: a status-only update on a collection in which another task
carries the same title as the target. -/
theorem updateTask_without_title_witness :
    (∀ t, (statusOnly "completed").title ≠ .str t) ∧
    (updateTask refPlatform 3 [pendingTask idA "a" 1, pendingTask idB "a" 2] idA
      (statusOnly "completed")).1 ≠ .message 400 "A task with this title already exists." :=
  ⟨fun _ h => JVal.noConfusion h,
    (updateTask_without_title refPlatform 3 [pendingTask idA "a" 1, pendingTask idB "a" 2] idA
      (statusOnly "completed") (fun _ h => JVal.noConfusion h)).1⟩

/-- C8, as stated, fails: fetching the malformed identifier `abc` is answered
500, not 404. -/
theorem getTaskById_malformed :
    getTaskById refPlatform [pendingTask idA "a" 1] "abc" =
      (.message 500 "Server error while fetching task", [pendingTask idA "a" 1]) := by
  decide

/-- C9, as stated, fails: deleting the malformed identifier `abc`, which names
no stored task, is answered 500, not 404. -/
theorem deleteTask_malformed :
    (∀ x ∈ [pendingTask idA "a" 1], x._id ≠ "abc") ∧
    deleteTask refPlatform [pendingTask idA "a" 1] "abc" =
      (.message 500 "Server error while deleting task", [pendingTask idA "a" 1]) := by
  decide

/-- Witness of C9: deleting the only task and fetching it afterwards. -/
theorem deleteTask_spec_witness :
    UniqueIds [pendingTask idA "Write report" 1] ∧
    (deleteTask refPlatform [pendingTask idA "Write report" 1] idA).1.code = 200 ∧
    (getTaskById refPlatform (deleteTask refPlatform [pendingTask idA "Write report" 1] idA).2
      idA).1 = .message 404 "Task not found" := by
  have hu : UniqueIds [pendingTask idA "Write report" 1] := by simp [UniqueIds]
  have hc : (deleteTask refPlatform [pendingTask idA "Write report" 1] idA).1.code = 200 := by
    decide
  obtain ⟨_, _, _, _, _, _, _, _, _, h⟩ :=
    (deleteTask_spec refPlatform [pendingTask idA "Write report" 1] idA hu).1 hc
  exact ⟨hu, hc, h⟩

/-! ## The task console -/

theorem includes_iff (hay needle : String) : includes hay needle = true ↔ OccursIn needle hay := by
  unfold includes OccursIn
  rw [List.any_eq_true, List.infix_iff_prefix_suffix]
  constructor
  · rintro ⟨t, ht, hp⟩
    exact ⟨t, List.isPrefixOf_iff_prefix.1 hp, (List.mem_tails _ _).1 ht⟩
  · rintro ⟨t, hp, ht⟩
    exact ⟨t, (List.mem_tails _ _).2 ht, List.isPrefixOf_iff_prefix.2 hp⟩

theorem orEmpty_eq (d : Option String) : orEmpty d = d.getD "" := by
  cases d with
  | none => rfl
  | some x =>
    by_cases hx : x = ""
    · simp [orEmpty, hx]
    · simp [orEmpty, hx]

theorem occursIn_of_empty (needle hay : String) (h : needle = "") : OccursIn needle hay := by
  subst h
  exact List.nil_infix

/-- C11 (amended). The tasks shown are exactly the sub-sequence of the loaded
list, in its order, of the tasks for which the filter is `all` or equals the
status, and the search text, trimmed of surrounding whitespace and lower-cased,
occurs in the lower-cased title or description. On the two tasks `A` (pending)
and `B` (completed), filter `completed` with search `b` shows exactly `B` and
filter `all` with search `z` shows nothing. -/
theorem filteredTasks_spec :
    (∀ (toLowerCase : String → String) (tasks : List Task) (filterStatus search : String),
      ∃ p : Task → Bool,
        (∀ t, p t = true ↔ ShownBySpec toLowerCase filterStatus (jsTrim search) t) ∧
        filteredTasks toLowerCase tasks filterStatus search = tasks.filter p) ∧
    filteredTasks asciiLowerCase scenarioTasks "completed" "b" =
      [⟨idB, "B", none, "completed", 2, 2⟩] ∧
    filteredTasks asciiLowerCase scenarioTasks "all" "z" = [] := by
  refine ⟨?_, by decide, by decide⟩
  intro lower tasks filterStatus search
  refine ⟨_, ?_, rfl⟩
  intro t
  unfold ShownBySpec
  simp only [Bool.and_eq_true, Bool.or_eq_true, includes_iff, orEmpty_eq, beq_iff_eq]
  constructor
  · rintro ⟨hs, hm⟩
    refine ⟨?_, ?_⟩
    · by_cases hf : filterStatus = "all"
      · exact Or.inl hf
      · rw [if_neg hf] at hs
        exact Or.inr (by simpa using hs)
    · rcases hm with (hm | hm) | hm
      · exact Or.inl (occursIn_of_empty _ _ hm)
      · exact Or.inl hm
      · exact Or.inr hm
  · rintro ⟨hs, hm⟩
    refine ⟨?_, ?_⟩
    · by_cases hf : filterStatus = "all"
      · rw [if_pos hf]
      · rw [if_neg hf]
        rcases hs with hs | hs
        · exact absurd hs hf
        · simpa using hs
    · rcases hm with hm | hm
      · exact Or.inl (Or.inr hm)
      · exact Or.inr hm

/-- C11, as stated, fails: with the search text ` a` (a blank, then `a`) and
filter `all`, the task titled `A` is shown, although ` a` occurs neither in its
lower-cased title nor in its description. -/
theorem filteredTasks_untrimmed_search :
    filteredTasks asciiLowerCase [⟨idA, "A", none, "pending", 1, 1⟩] "all" " a" =
        [⟨idA, "A", none, "pending", 1, 1⟩] ∧
      ¬ ShownBySpec asciiLowerCase "all" " a" ⟨idA, "A", none, "pending", 1, 1⟩ := by
  refine ⟨by decide, ?_⟩
  rintro ⟨-, h | h⟩ <;> exact absurd h (by unfold OccursIn; decide)

end TaskManagement
